import Mathlib

/-!
# fxch: an fx-wired HTTP server with an echo and a hello route

A shallow embedding of `main.go`.  The program is glue around Go's standard
library, so the embedding has two layers:

* the repository's own functions (`NewHttpServer`, `NewServeMux`,
  `EchoHandler.ServeHTTP`, `HelloHandler.ServeHTTP`, the two `Pattern`
  methods), translated statement by statement;
* the library calls they make (`io.Copy`, `io.ReadAll`, `fmt.Fprintf`,
  `http.Error`, `ResponseWriter.Write/WriteHeader`, `ServeMux.Handle`,
  `ServeMux.ServeHTTP` with the sanitising of host and path that precedes the
  table lookup, `Server.Shutdown`), modelled after `io`, `fmt` and `net/http`
  (the pattern table is the one of Go up to 1.21, the versions in which the
  patterns of this program are accepted at registration).

Time is discrete: one tick is one poll of `Server.Shutdown`.

Effects are explicit: a handler maps a response writer and a request to the
new response writer and the entries it logged; a lifecycle hook maps the
process state to a result and a new process state; a panic is `Except.error`.
-/

namespace Fxch

/-! ## Bytes, errors, log entries -/

/-- One octet of a body. -/
abbrev Byte := UInt8

/-- The bytes of a string constant of the program.  One `Char` of the Lean
string stands for one byte of the Go string (exact for the ASCII constants
the program uses). -/
def bytes (s : String) : List Byte :=
  s.toList.map (fun c => c.toNat.toUInt8)

/-- A Go `error` value (non-nil); `Option Error` is the Go type `error`. -/
structure Error where
  msg : String
deriving DecidableEq, Repr

/-- Severity of a `zap` log entry. -/
inductive Level where
  | Info
  | Warn
  | Error
deriving DecidableEq, Repr

/-- A structured `zap` field. -/
structure Field where
  key : String
  value : String
deriving DecidableEq, Repr

/-- One entry written to a `*zap.Logger`. -/
structure Entry where
  level : Level
  msg : String
  fields : List Field
deriving DecidableEq, Repr

/-- The field built by `zap.Error(err)`. -/
def zap.Error (err : Error) : Field := ⟨"error", err.msg⟩

/-- The field built by `zap.String(key, val)`. -/
def zap.String (key val : String) : Field := ⟨key, val⟩

/-! ## Request bodies and response writers -/

/-- A request body as an `io.Reader`: successive `Read` calls deliver the
chunks in order (a chunk may be empty), then the stream ends, with `io.EOF`
when `err = none` and with the read error otherwise. -/
structure Body where
  chunks : List (List Byte)
  err : Option Error

/-- All the bytes the body delivers before it ends. -/
def Body.data (b : Body) : List Byte := b.chunks.flatten

/-- The fields of `url.URL` the router reads or writes. -/
structure URL where
  Host : String
  Path : String
  RawQuery : String
deriving DecidableEq, Repr

/-- The part of `*http.Request` the program and the router look at. -/
structure Request where
  Method : String
  RequestURI : String
  ProtoMajor : Nat
  ProtoMinor : Nat
  Host : String
  URL : URL
  Body : Body

/-- The method `(*Request).ProtoAtLeast(major, minor)`. -/
def Request.ProtoAtLeast (r : Request) (major minor : Nat) : Bool :=
  decide (r.ProtoMajor > major) || (decide (r.ProtoMajor = major) && decide (r.ProtoMinor ≥ minor))

/-- An `http.ResponseWriter`.  `status` is `none` until the header has been
written; `body` holds the bytes accepted so far; `conn` is the environment:
`conn written p` is what writing `p` after `written` returns, the number of
bytes of `p` accepted and the error, if any. -/
structure ResponseWriter where
  header : List (String × String)
  status : Option Nat
  body : List Byte
  conn : List Byte → List Byte → Nat × Option Error

/-- A response on which nothing has been set or written yet. -/
def ResponseWriter.fresh (conn : List Byte → List Byte → Nat × Option Error) :
    ResponseWriter :=
  { header := [], status := none, body := [], conn := conn }

/-- The call `w.Header().Set(key, value)`. -/
def ResponseWriter.SetHeader (w : ResponseWriter) (key value : String) : ResponseWriter :=
  { w with header := (key, value) :: w.header.filter (fun kv => kv.1 != key) }

/-- The method `WriteHeader(code)`: commits the status; a status already committed
stays ("superfluous WriteHeader call"). -/
def ResponseWriter.WriteHeader (w : ResponseWriter) (code : Nat) : ResponseWriter :=
  match w.status with
  | none => { w with status := some code }
  | some _ => w

/-- The method `Write(p)`: the first write commits status 200 if no header was written;
an empty write succeeds; otherwise the connection decides how many bytes it
takes and whether it reports an error. -/
def ResponseWriter.Write (w : ResponseWriter) (p : List Byte) :
    ResponseWriter × Nat × Option Error :=
  let w1 := w.WriteHeader 200
  if p.length = 0 then (w1, 0, none)
  else
    let res := w.conn w.body p
    ({ w1 with body := w1.body ++ p.take res.1 }, res.1, res.2)

/-- The error `io.Copy` reports for a write count larger than the chunk. -/
def io.errInvalidWrite : Error := ⟨"invalid write result"⟩

/-- The error `io.Copy` reports for a short write without an error. -/
def io.ErrShortWrite : Error := ⟨"short write"⟩

/-- The copy loop of `io.Copy(dst, src)`: each non-empty chunk read is
written; a write error, an invalid or a short write stops the loop; at the
end of the stream `io.EOF` gives `nil` and any other read error is returned.
Returns the writer, the byte count and the error. -/
def io.copyLoop (dst : ResponseWriter) :
    List (List Byte) → Option Error → ResponseWriter × Nat × Option Error
  | [], er => (dst, 0, er)
  | c :: rest, er =>
    if 0 < c.length then
      let r := dst.Write c
      let nw := if c.length < r.2.1 then 0 else r.2.1
      let ew := if c.length < r.2.1 then (r.2.2 <|> some io.errInvalidWrite) else r.2.2
      match ew with
      | some e => (r.1, nw, some e)
      | none =>
        if c.length ≠ nw then (r.1, nw, some io.ErrShortWrite)
        else
          let k := io.copyLoop r.1 rest er
          (k.1, nw + k.2.1, k.2.2)
    else io.copyLoop dst rest er

/-- The call `io.Copy(dst, src)`. -/
def io.Copy (dst : ResponseWriter) (src : Body) : ResponseWriter × Nat × Option Error :=
  io.copyLoop dst src.chunks src.err

/-- The call `io.ReadAll(r)`: the bytes read until the stream ends, and the
error it ended with (`nil` for `io.EOF`). -/
def io.ReadAll (r : Body) : List Byte × Option Error :=
  (r.data, r.err)

/-- The call `fmt.Fprintf(w, format, args...)` once formatted: the formatted
bytes `p` go to `w` in one `Write`. -/
def fmt.Fprintf (w : ResponseWriter) (p : List Byte) : ResponseWriter × Nat × Option Error :=
  w.Write p

/-- The constant `http.StatusInternalServerError`. -/
def http.StatusInternalServerError : Nat := 500

/-- The constant `http.StatusNotFound`. -/
def http.StatusNotFound : Nat := 404

/-- The call `http.Error(w, error, code)`: sets the two plain-text headers,
writes the header with `code`, then prints `error` and a newline to `w`,
ignoring the result of that write. -/
def http.Error (w : ResponseWriter) (error : String) (code : Nat) : ResponseWriter :=
  let w1 := w.SetHeader "Content-Type" "text/plain; charset=utf-8"
  let w2 := w1.SetHeader "X-Content-Type-Options" "nosniff"
  let w3 := w2.WriteHeader code
  (fmt.Fprintf w3 (bytes error ++ bytes "\n")).1

/-! ## The two handlers -/

/-- What a handler does: a new response state and the entries logged. -/
abbrev Handler := ResponseWriter → Request → ResponseWriter × List Entry

/-- The method `(*EchoHandler).ServeHTTP`: copy the body to the response, warn on
failure. -/
def EchoHandler.ServeHTTP : Handler := fun w r =>
  let c := io.Copy w r.Body
  match c.2.2 with
  | some err => (c.1, [⟨Level.Warn, "Failed to handle request", [zap.Error err]⟩])
  | none => (c.1, [])

/-- The method `(*EchoHandler).Pattern`. -/
def EchoHandler.Pattern : String := "echo"

/-- The method `(*HelloHandler).ServeHTTP`: read the whole body, print the
greeting; on either failure log at error level and call `http.Error`. -/
def HelloHandler.ServeHTTP : Handler := fun w r =>
  let rd := io.ReadAll r.Body
  match rd.2 with
  | some err =>
    (http.Error w "Internal server error" http.StatusInternalServerError,
      [⟨Level.Error, "Failed to read request", [zap.Error err]⟩])
  | none =>
    let f := fmt.Fprintf w (bytes "Hello, " ++ rd.1 ++ bytes "\n")
    match f.2.2 with
    | some err =>
      (http.Error f.1 "Internal server error" http.StatusInternalServerError,
        [⟨Level.Error, "Failed to write response", [zap.Error err]⟩])
    | none => (f.1, [])

/-- The method `(*HelloHandler).Pattern`. -/
def HelloHandler.Pattern : String := "hello"

/-! ## The router: `http.ServeMux` and `NewServeMux` -/

/-- The interface `Route`: an `http.Handler` that also names its pattern. -/
structure Route where
  ServeHTTP : Handler
  Pattern : String

/-- The route `NewEchoHandler` provides. -/
def NewEchoHandler : Route := ⟨EchoHandler.ServeHTTP, EchoHandler.Pattern⟩

/-- The route `NewHelloHandler` provides. -/
def NewHelloHandler : Route := ⟨HelloHandler.ServeHTTP, HelloHandler.Pattern⟩

/-- An entry of the pattern table of `http.ServeMux`. -/
structure muxEntry where
  h : Handler
  pattern : String

/-- The `http.ServeMux` pattern table: `m` is the map from pattern to entry
(in registration order; `Handle` keeps the keys distinct), `es` the entries
whose pattern ends in a slash, longest pattern first, and `hosts` records
whether some pattern does not start with a slash. -/
structure ServeMux where
  m : List muxEntry
  es : List muxEntry
  hosts : Bool

/-- The call `http.NewServeMux()`. -/
def http.NewServeMux : ServeMux := { m := [], es := [], hosts := false }

/-- The map lookup `mux.m[key]`. -/
def ServeMux.lookup (mux : ServeMux) (key : String) : Option muxEntry :=
  mux.m.find? (fun e => e.pattern == key)

/-- The helper `appendSorted(es, e)`: `e` goes before the first entry whose
pattern is shorter (lengths are counted in characters, the byte length of an
ASCII pattern). -/
def appendSorted (es : List muxEntry) (e : muxEntry) : List muxEntry :=
  es.takeWhile (fun x => ! decide (x.pattern.length < e.pattern.length)) ++
    e :: es.dropWhile (fun x => ! decide (x.pattern.length < e.pattern.length))

/-- The method `(*ServeMux).Handle(pattern, handler)`: panics on the empty
pattern and on a pattern that is already registered ("If a handler already
exists for pattern, Handle panics"); otherwise adds the entry.  Its third
panic, for a nil handler, cannot arise: a `Route` always carries a handler. -/
def ServeMux.Handle (mux : ServeMux) (pattern : String) (handler : Handler) :
    Except String ServeMux :=
  if pattern = "" then Except.error "http: invalid pattern"
  else if (mux.lookup pattern).isSome then
    Except.error ("http: multiple registrations for " ++ pattern)
  else
    let e : muxEntry := ⟨handler, pattern⟩
    Except.ok
      { m := mux.m ++ [e]
        es := if pattern.toList.getLast? = some '/' then appendSorted mux.es e else mux.es
        hosts := mux.hosts || decide (pattern.toList.head? ≠ some '/') }

/-- The function `NewServeMux(routes)`: a fresh mux on which every route is
registered under its own pattern, in order; a panic of `Handle` ends it. -/
def NewServeMux (routes : List Route) : Except String ServeMux :=
  routes.foldlM (fun mux route => mux.Handle route.Pattern route.ServeHTTP) http.NewServeMux

/-- The method `(*ServeMux).match(path)`: the exact entry if there is one,
otherwise the longest registered pattern ending in a slash that starts
`path`. -/
def ServeMux.match_ (mux : ServeMux) (path : String) : Option muxEntry :=
  match mux.lookup path with
  | some v => some v
  | none => mux.es.find? (fun e => e.pattern.toList.isPrefixOf path.toList)

/-- The method `(*ServeMux).handler(host, path)`: host-qualified patterns
first when there are any, then the path alone; `none` stands for
`NotFoundHandler()`. -/
def ServeMux.handler (mux : ServeMux) (host path : String) : Option muxEntry :=
  match (if mux.hosts then mux.match_ (host ++ path) else none) with
  | some e => some e
  | none => mux.match_ path

/-- The handler `http.NotFound`. -/
def http.NotFound : Handler := fun w _ =>
  (http.Error w "404 page not found" http.StatusNotFound, [])

/-- The constant `http.StatusBadRequest`. -/
def http.StatusBadRequest : Nat := 400

/-- The constant `http.StatusMovedPermanently`. -/
def http.StatusMovedPermanently : Nat := 301

/-- The elements of a path, the pieces between its slashes. -/
def splitSlash : List Char → List (List Char)
  | [] => [[]]
  | c :: cs =>
    if c = '/' then [] :: splitSlash cs
    else
      match splitSlash cs with
      | [] => [[c]]
      | s :: ss => (c :: s) :: ss

/-- One element of a rooted path in `path.Clean`: an empty element and "."
are dropped, ".." removes the element before it (none at the root), any other
element is kept. -/
def cleanStep (out : List (List Char)) (elem : List Char) : List (List Char) :=
  if elem = [] then out
  else if elem = ['.'] then out
  else if elem = ['.', '.'] then out.dropLast
  else out ++ [elem]

/-- The helper `cleanPath(p)` of `net/http`: the empty path is "/", a path
without a leading slash gets one, the path is cleaned with `path.Clean` (here
for a rooted path: a slash and the kept elements joined by slashes), and a
trailing slash is put back unless the result is the root. -/
def cleanPath (p : String) : String :=
  if p = "" then "/"
  else
    let p1 := if p.toList.head? ≠ some '/' then "/" ++ p else p
    let np := String.mk ('/' :: ['/'].intercalate ((splitSlash p1.toList).foldl cleanStep []))
    if p1.toList.getLast? = some '/' ∧ np ≠ "/" then np ++ "/" else np

/-- The index of the last `c` in `s`, if there is one. -/
def lastIndex (s : List Char) (c : Char) : Option Nat :=
  if s.contains c then some (s.length - 1 - s.reverse.indexOf c) else none

/-- The index of the first `c` in `s`, if there is one. -/
def firstIndex (s : List Char) (c : Char) : Option Nat :=
  if s.contains c then some (s.indexOf c) else none

/-- The function `net.SplitHostPort(hostport)`: host and port around the last
colon, the host possibly in square brackets; `none` for each of its errors
(missing port, too many colons, a bracket out of place). -/
def net.SplitHostPort (hostport : String) : Option (String × String) :=
  let s := hostport.toList
  match lastIndex s ':' with
  | none => none
  | some i =>
    let parsed : Option (List Char × Nat × Nat) :=
      if s.head? = some '[' then
        match firstIndex s ']' with
        | none => none
        | some e =>
          if e + 1 = s.length then none
          else if e + 1 = i then some ((s.take e).drop 1, 1, e + 1)
          else none
      else
        if (s.take i).contains ':' then none else some (s.take i, 0, 0)
    match parsed with
    | none => none
    | some (host, j, k) =>
      if (s.drop j).contains '[' then none
      else if (s.drop k).contains ']' then none
      else some (String.mk host, String.mk (s.drop (i + 1)))

/-- The helper `stripHostPort(h)` of `net/http`: `h` without its port, or `h`
itself when it has no colon or does not split. -/
def stripHostPort (h : String) : String :=
  if ¬ h.toList.contains ':' then h
  else
    match net.SplitHostPort h with
    | none => h
    | some hp => hp.1

/-- The method `(*ServeMux).shouldRedirectRLocked(host, path)`: whether the
path (alone or after the host) is not registered but the same with a slash
appended is. -/
def ServeMux.shouldRedirectRLocked (mux : ServeMux) (host path : String) : Bool :=
  if (mux.lookup path).isSome || (mux.lookup (host ++ path)).isSome then false
  else if path.length = 0 then false
  else if (mux.lookup (path ++ "/")).isSome then path.toList.getLast? != some '/'
  else if (mux.lookup (host ++ path ++ "/")).isSome then path.toList.getLast? != some '/'
  else false

/-- The method `(*ServeMux).Handler(r)`: the handler for the request and the
pattern it was found under.  A CONNECT request is looked up as it is; for any
other the port is stripped from the host and the path is cleaned.  A path
that is registered only with a trailing slash, or that is not clean, is
answered by a redirect (301) to the right path.  `RedirectHandler` is the
library's `http.RedirectHandler`, given the URL to render and the code. -/
def ServeMux.Handler (mux : ServeMux) (RedirectHandler : URL → Nat → Fxch.Handler)
    (r : Request) : Fxch.Handler × String :=
  if r.Method = "CONNECT" then
    if mux.shouldRedirectRLocked r.URL.Host r.URL.Path then
      (RedirectHandler { Host := "", Path := r.URL.Path ++ "/", RawQuery := r.URL.RawQuery }
          http.StatusMovedPermanently, r.URL.Path ++ "/")
    else
      match mux.handler r.Host r.URL.Path with
      | some e => (e.h, e.pattern)
      | none => (http.NotFound, "")
  else
    let host := stripHostPort r.Host
    let path := cleanPath r.URL.Path
    if mux.shouldRedirectRLocked host path then
      (RedirectHandler { Host := "", Path := path ++ "/", RawQuery := r.URL.RawQuery }
          http.StatusMovedPermanently, path ++ "/")
    else if path ≠ r.URL.Path then
      (RedirectHandler { Host := "", Path := path, RawQuery := r.URL.RawQuery }
          http.StatusMovedPermanently,
        match mux.handler host path with
        | some e => e.pattern
        | none => "")
    else
      match mux.handler host r.URL.Path with
      | some e => (e.h, e.pattern)
      | none => (http.NotFound, "")

/-- The method `(*ServeMux).ServeHTTP`: the request-URI "*" is answered with
400 (and `Connection: close` from HTTP/1.1 on); any other request is handled
by the handler `Handler(r)` selects. -/
def ServeMux.ServeHTTP (mux : ServeMux) (RedirectHandler : URL → Nat → Fxch.Handler) :
    Fxch.Handler :=
  fun w r =>
    if r.RequestURI = "*" then
      ((if r.ProtoAtLeast 1 1 then w.SetHeader "Connection" "close" else w).WriteHeader
          http.StatusBadRequest, [])
    else (mux.Handler RedirectHandler r).1 w r

/-! ## The server lifecycle: `NewHttpServer` -/

/-- The fields of `http.Server` the program sets. -/
structure Server where
  Addr : String
  Handler : ServeMux

/-- A bound listening socket, as returned by `net.Listen`. -/
structure Listener where
  network : String
  address : String
  fd : Nat
deriving DecidableEq, Repr

/-- A `context.Context`, identified by its deadline (if any), the tick from
which it is done; a context that is cancelled by hand is not modelled. -/
structure Context where
  deadline : Option Nat
deriving DecidableEq, Repr

/-- The error `context.DeadlineExceeded`. -/
def context.DeadlineExceeded : Error := ⟨"context deadline exceeded"⟩

/-- The value of `ctx.Err()` at tick `t`: `nil` before the deadline, the
deadline error from the deadline on. -/
def Context.Err (ctx : Context) (t : Nat) : Option Error :=
  match ctx.deadline with
  | none => none
  | some d => if d ≤ t then some context.DeadlineExceeded else none

/-- A task started with a `go` statement. -/
inductive Goroutine where
  | Serve (srv : Server) (ln : Listener)

/-- The outside world of the lifecycle hooks: what `net.Listen(network,
address)` returns; the clock reading when the hook runs; for each connection
that is serving a request at that moment, the tick at which the request is
finished and the connection idle; and what closing the listeners returns. -/
structure Env where
  Listen : String → String → Except Error Listener
  now : Nat
  active : List Nat
  closeListeners : Option Error

/-- The observable process state: the log and the goroutines launched. -/
structure Proc where
  log : List Entry
  goroutines : List Goroutine

/-- An `fx.Hook`: each callback returns a Go `error` and the new state. -/
structure Hook where
  OnStart : Env → Context → Proc → Option Error × Proc
  OnStop : Env → Context → Proc → Option Error × Proc

/-- An `fx.Lifecycle`: the hooks appended so far. -/
structure Lifecycle where
  hooks : List Hook

/-- The call `lc.Append(hook)`. -/
def Lifecycle.Append (lc : Lifecycle) (h : Hook) : Lifecycle := ⟨lc.hooks ++ [h]⟩

/-- The `OnStart` closure of `NewHttpServer`. -/
def NewHttpServer.OnStart (srv : Server) : Env → Context → Proc → Option Error × Proc :=
  fun env _ctx p =>
    match env.Listen "tcp" srv.Addr with
    | Except.error err => (some err, p)
    | Except.ok ln =>
      let p1 : Proc :=
        { p with log := p.log ++
            [⟨Level.Info, "Starting HTTP server at", [zap.String "addr" srv.Addr]⟩] }
      let p2 : Proc := { p1 with goroutines := p1.goroutines ++ [Goroutine.Serve srv ln] }
      (none, p2)

/-- The method `closeIdleConns` at tick `t`: every connection whose request
is finished is closed; reports whether none is left serving. -/
def Server.closeIdleConns (active : List Nat) (t : Nat) : Bool :=
  active.all (fun c => decide (c ≤ t))

/-- The polling loop of `(*Server).Shutdown(ctx)` from tick `t` on: when no
connection is left serving it returns the listeners' close error; otherwise,
when the context is done, it returns the context's error; otherwise it polls
again one tick later. -/
def Server.shutdownPoll (active : List Nat) (lnerr : Option Error) (ctx : Context) (t : Nat) :
    Option Error :=
  if _ : Server.closeIdleConns active t = true then lnerr
  else
    match ctx.Err t with
    | some e => some e
    | none => Server.shutdownPoll active lnerr ctx (t + 1)
termination_by active.foldr max 0 + 1 - t
decreasing_by
  rename_i h
  have hex : ∃ c ∈ active, t < c := by
    unfold Server.closeIdleConns at h
    simpa using h
  obtain ⟨c, hc, htc⟩ := hex
  have hle : ∀ l : List Nat, c ∈ l → c ≤ l.foldr max 0 := by
    intro l
    induction l with
    | nil => intro hin; cases hin
    | cons a l ih =>
      intro hin
      rcases List.mem_cons.mp hin with hm | hm
      · subst hm
        exact le_max_left _ _
      · exact le_trans (ih hm) (le_max_right _ _)
  have := hle active hc
  omega

/-- The method `(*Server).Shutdown(ctx)`: the listeners are closed, with
result `lnerr`, then the connections are polled until all are idle or the
context is done. -/
def Server.Shutdown (_srv : Server) (env : Env) (ctx : Context) : Option Error :=
  Server.shutdownPoll env.active env.closeListeners ctx env.now

/-- The `OnStop` closure of `NewHttpServer`. -/
def NewHttpServer.OnStop (srv : Server) : Env → Context → Proc → Option Error × Proc :=
  fun env ctx p => (srv.Shutdown env ctx, p)

/-- In the spec's words: the in-flight requests complete up to the deadline.
Every request being served when `Stop` is called is finished by the deadline
(or is finished already); without a deadline there is nothing to miss. -/
def DrainsInTime (env : Env) (ctx : Context) : Prop :=
  match ctx.deadline with
  | none => True
  | some d => ∀ c ∈ env.active, c ≤ max env.now d

instance (env : Env) (ctx : Context) : Decidable (DrainsInTime env ctx) := by
  unfold DrainsInTime
  cases ctx.deadline <;> infer_instance

/-- In the spec's words: the shutdown completed cleanly within the deadline.
The listeners closed without error and the in-flight requests completed up to
the deadline. -/
def CompletesCleanly (env : Env) (ctx : Context) : Prop :=
  env.closeListeners = none ∧ DrainsInTime env ctx

instance (env : Env) (ctx : Context) : Decidable (CompletesCleanly env ctx) := by
  unfold CompletesCleanly
  infer_instance

/-- The function `NewHttpServer(lc, mux, log)`: the server it returns and the lifecycle
with the hook appended. -/
def NewHttpServer (lc : Lifecycle) (mux : ServeMux) : Server × Lifecycle :=
  let srv : Server := { Addr := ":8081", Handler := mux }
  (srv, lc.Append { OnStart := NewHttpServer.OnStart srv, OnStop := NewHttpServer.OnStop srv })

/-- Registering a list of routes on a given mux, the loop of `NewServeMux`. -/
def registerAll (mux : ServeMux) (routes : List Route) : Except String ServeMux :=
  routes.foldlM (fun mux route => mux.Handle route.Pattern route.ServeHTTP) mux

/-! ## Concrete connections, requests, routes and worlds used in the examples -/

/-- A connection that takes every write whole. -/
def okConn : List Byte → List Byte → Nat × Option Error :=
  fun _ p => (p.length, none)

/-- A connection that takes `n` bytes in total and then is broken. -/
def brokenAfter (n : Nat) : List Byte → List Byte → Nat × Option Error :=
  fun written p =>
    if written.length + p.length ≤ n then (p.length, none)
    else (n - written.length, some ⟨"write: broken pipe"⟩)

/-- A request to `path` whose body arrives in the given chunks and ends with
`io.EOF`. -/
def post (path : String) (chunks : List (List Byte)) : Request :=
  { Method := "POST", RequestURI := path, ProtoMajor := 1, ProtoMinor := 1,
    Host := "localhost", URL := { Host := "", Path := path, RawQuery := "" },
    Body := { chunks := chunks, err := none } }

/-- A request with the given method and host whose target is `path`. -/
def requestTo (method host path : String) (body : Body) : Request :=
  { Method := method, RequestURI := path, ProtoMajor := 1, ProtoMinor := 1,
    Host := host, URL := { Host := "", Path := path, RawQuery := "" }, Body := body }

/-- A stand-in for `http.RedirectHandler` in the examples: the `Location`
header and the status, without the body the library adds. -/
def locationRedirect : URL → Nat → Handler :=
  fun u code w _ => ((w.SetHeader "Location" u.Path).WriteHeader code, [])

/-- A route that declares the subtree pattern "/". -/
def rootRoute : Route := ⟨EchoHandler.ServeHTTP, "/"⟩

/-- A route that declares a pattern qualified by the host "localhost". -/
def hostRoute : Route := ⟨EchoHandler.ServeHTTP, "localhost/x"⟩

/-- A world in which the port is taken. -/
def busyEnv : Env :=
  { Listen := fun _ _ => Except.error ⟨"listen tcp :8081: bind: address already in use"⟩
    now := 0, active := [], closeListeners := none }

/-- A world in which binding works; at tick 10 one request is being served
and will be finished at tick 25. -/
def freeEnv : Env :=
  { Listen := fun network address => Except.ok ⟨network, address, 3⟩
    now := 10, active := [25], closeListeners := none }

/-! ## Facts about the response writer and the copy loop -/

theorem Write_header (w : ResponseWriter) (p : List Byte) : (w.Write p).1.header = w.header := by
  unfold ResponseWriter.Write ResponseWriter.WriteHeader
  cases hs : w.status <;> by_cases hp : p.length = 0 <;> simp [hp]

theorem Write_status (w : ResponseWriter) (p : List Byte) :
    (w.Write p).1.status = some (w.status.getD 200) := by
  unfold ResponseWriter.Write ResponseWriter.WriteHeader
  cases hs : w.status <;> by_cases hp : p.length = 0 <;> simp [hp, hs]

theorem Write_body (w : ResponseWriter) (p : List Byte) :
    (w.Write p).1.body = w.body ++ p.take (w.Write p).2.1 := by
  unfold ResponseWriter.Write ResponseWriter.WriteHeader
  cases hs : w.status <;> by_cases hp : p.length = 0 <;> simp [hp]

theorem Write_conn (w : ResponseWriter) (p : List Byte) : (w.Write p).1.conn = w.conn := by
  unfold ResponseWriter.Write ResponseWriter.WriteHeader
  cases hs : w.status <;> by_cases hp : p.length = 0 <;> simp [hp]

theorem WriteHeader_body (w : ResponseWriter) (code : Nat) :
    (w.WriteHeader code).body = w.body := by
  unfold ResponseWriter.WriteHeader
  cases w.status <;> rfl

theorem copyLoop_spec (chunks : List (List Byte)) (er : Option Error) :
    ∀ dst : ResponseWriter,
      (io.copyLoop dst chunks er).1.header = dst.header ∧
      ((io.copyLoop dst chunks er).1.status = dst.status ∨
        (io.copyLoop dst chunks er).1.status = some 200) ∧
      ∃ k, k <+: chunks.flatten ∧ (io.copyLoop dst chunks er).1.body = dst.body ++ k ∧
        ((io.copyLoop dst chunks er).2.2 = none → k = chunks.flatten ∧ er = none) := by
  induction chunks with
  | nil =>
    intro dst
    refine ⟨rfl, Or.inl rfl, [], ?_, ?_, ?_⟩ <;> simp [io.copyLoop]
  | cons c rest ih =>
    intro dst
    have hst : (dst.Write c).1.status = dst.status ∨ (dst.Write c).1.status = some 200 := by
      rw [Write_status]; cases dst.status <;> simp
    by_cases hc : 0 < c.length
    · by_cases hlt : c.length < (dst.Write c).2.1
      · -- invalid write count: the loop stops with an error
        have hne : ((dst.Write c).2.2 <|> some io.errInvalidWrite) ≠ none := by
          cases (dst.Write c).2.2 <;> simp
        obtain ⟨e, he⟩ := Option.ne_none_iff_exists'.mp hne
        refine ⟨?_, ?_, c, ?_, ?_, ?_⟩
        · simp [io.copyLoop, hc, hlt, he, Write_header]
        · simpa [io.copyLoop, hc, hlt, he] using hst
        · simp
        · simp [io.copyLoop, hc, hlt, he, Write_body, List.take_of_length_le (le_of_lt hlt)]
        · simp [io.copyLoop, hc, hlt, he]
      · cases hew : (dst.Write c).2.2 with
        | some e =>
          refine ⟨?_, ?_, c.take (dst.Write c).2.1, ?_, ?_, ?_⟩
          · simp [io.copyLoop, hc, hlt, hew, Write_header]
          · simpa [io.copyLoop, hc, hlt, hew] using hst
          · exact (List.take_prefix _ c).trans (List.prefix_append c rest.flatten)
          · simp [io.copyLoop, hc, hlt, hew, Write_body]
          · simp [io.copyLoop, hc, hlt, hew]
        | none =>
          by_cases hn : c.length = (dst.Write c).2.1
          · obtain ⟨h1, h2, k, hk1, hk2, hk3⟩ := ih (dst.Write c).1
            have hb : (dst.Write c).1.body = dst.body ++ c := by
              rw [Write_body, List.take_of_length_le (le_of_eq hn)]
            refine ⟨?_, ?_, c ++ k, ?_, ?_, ?_⟩
            · simp [io.copyLoop, hc, hlt, hew, hn.symm, h1, Write_header]
            · have : (io.copyLoop dst (c :: rest) er).1.status =
                  (io.copyLoop (dst.Write c).1 rest er).1.status := by
                simp [io.copyLoop, hc, hlt, hew, hn.symm]
              rw [this]
              rcases h2 with h2 | h2
              · rw [h2]; exact hst
              · exact Or.inr h2
            · simpa using (List.prefix_append_right_inj c).mpr hk1
            · simp [io.copyLoop, hc, hlt, hew, hn.symm, hk2, hb]
            · intro hnone
              have hnone2 : (io.copyLoop (dst.Write c).1 rest er).2.2 = none := by
                simpa [io.copyLoop, hc, hlt, hew, hn.symm] using hnone
              obtain ⟨hk, her⟩ := hk3 hnone2
              simp [hk, her]
          · refine ⟨?_, ?_, c.take (dst.Write c).2.1, ?_, ?_, ?_⟩
            · simp [io.copyLoop, hc, hlt, hew, hn, Write_header]
            · simpa [io.copyLoop, hc, hlt, hew, hn] using hst
            · exact (List.take_prefix _ c).trans (List.prefix_append c rest.flatten)
            · simp [io.copyLoop, hc, hlt, hew, hn, Write_body]
            · simp [io.copyLoop, hc, hlt, hew, hn]
    · have hc0 : c = [] := List.length_eq_zero.mp (Nat.eq_zero_of_not_pos hc)
      subst hc0
      simpa [io.copyLoop] using ih dst

/-- On a connection that takes every write whole, copying a body that ends
with `io.EOF` succeeds, whatever the body: the success C1 assumes exists for
every byte sequence and every chunking of it. -/
theorem copyLoop_ok (chunks : List (List Byte)) :
    ∀ dst : ResponseWriter, (∀ written p, dst.conn written p = (p.length, none)) →
      (io.copyLoop dst chunks none).2.2 = none := by
  induction chunks with
  | nil => intro dst _; rfl
  | cons c rest ih =>
    intro dst hconn
    by_cases hc : 0 < c.length
    · have hw : (dst.Write c).2 = (c.length, none) := by
        unfold ResponseWriter.Write
        simp [Nat.ne_of_gt hc, hconn]
      have hn : (dst.Write c).2.1 = c.length := by rw [hw]
      have he : (dst.Write c).2.2 = none := by rw [hw]
      have hnext := ih (dst.Write c).1 (by rw [Write_conn]; exact hconn)
      simp [io.copyLoop, hc, hn, he, hnext]
    · have hc0 : c = [] := List.length_eq_zero.mp (Nat.eq_zero_of_not_pos hc)
      subst hc0
      simpa [io.copyLoop] using ih dst hconn

/-! ## The echo handler -/

/-- C1: when `io.Copy` reports no error (every read of the request body
and every write to the response succeeded), `EchoHandler.ServeHTTP` has
appended exactly the bytes of the request body to the response body, in
order and with nothing added, and has logged nothing. -/
theorem echo_roundtrip (w : ResponseWriter) (r : Request)
    (hok : (io.Copy w r.Body).2.2 = none) :
    (EchoHandler.ServeHTTP w r).1.body = w.body ++ r.Body.data ∧
    (EchoHandler.ServeHTTP w r).2 = [] := by
  obtain ⟨_, _, k, _, hk2, hk3⟩ := copyLoop_spec r.Body.chunks r.Body.err w
  have hok2 : (io.copyLoop w r.Body.chunks r.Body.err).2.2 = none := hok
  have hk : k = r.Body.chunks.flatten := (hk3 hok2).1
  unfold EchoHandler.ServeHTTP
  simp only [hok]
  exact ⟨by simpa [io.Copy, Body.data, hk] using hk2, trivial⟩

/-- Witness of C1: a two-chunk body echoed on a fresh response. -/
theorem echo_roundtrip_witness :
    (io.Copy (ResponseWriter.fresh okConn) (post "/echo" [[104, 105], [33]]).Body).2.2 = none ∧
    (EchoHandler.ServeHTTP (ResponseWriter.fresh okConn) (post "/echo" [[104, 105], [33]])).1.body
      = [] ++ [104, 105, 33] ∧
    (EchoHandler.ServeHTTP (ResponseWriter.fresh okConn) (post "/echo" [[104, 105], [33]])).2
      = [] :=
  ⟨by decide,
   echo_roundtrip (ResponseWriter.fresh okConn) (post "/echo" [[104, 105], [33]]) (by decide)⟩

/-- C10: when `io.Copy` fails with error `e`, `EchoHandler.ServeHTTP` logs
exactly one entry, the warning carrying `e`, and touches the response no
further: what it has appended to the response body is a prefix of the request
body, the headers are unchanged, and the status is the one it was or the 200
a first write commits (no error status, no error text). -/
theorem echo_failure_warns_only (w : ResponseWriter) (r : Request) (e : Error)
    (hfail : (io.Copy w r.Body).2.2 = some e) :
    (EchoHandler.ServeHTTP w r).2 =
      [⟨Level.Warn, "Failed to handle request", [zap.Error e]⟩] ∧
    (∃ k, k <+: r.Body.data ∧ (EchoHandler.ServeHTTP w r).1.body = w.body ++ k) ∧
    (EchoHandler.ServeHTTP w r).1.header = w.header ∧
    ((EchoHandler.ServeHTTP w r).1.status = w.status ∨
      (EchoHandler.ServeHTTP w r).1.status = some 200) := by
  obtain ⟨h1, h2, k, hk1, hk2, _⟩ := copyLoop_spec r.Body.chunks r.Body.err w
  unfold EchoHandler.ServeHTTP
  simp only [hfail]
  exact ⟨trivial, ⟨k, hk1, hk2⟩, h1, h2⟩

/-- Witness of C10: the connection breaks after three of five bytes. -/
theorem echo_failure_warns_only_witness :
    (io.Copy (ResponseWriter.fresh (brokenAfter 3))
        (post "/echo" [[1, 2], [3, 4, 5]]).Body).2.2 = some ⟨"write: broken pipe"⟩ ∧
    (EchoHandler.ServeHTTP (ResponseWriter.fresh (brokenAfter 3))
        (post "/echo" [[1, 2], [3, 4, 5]])).1.body = [1, 2, 3] ∧
    (EchoHandler.ServeHTTP (ResponseWriter.fresh (brokenAfter 3))
        (post "/echo" [[1, 2], [3, 4, 5]])).2 =
      [⟨Level.Warn, "Failed to handle request", [zap.Error ⟨"write: broken pipe"⟩]⟩] :=
  ⟨by decide, by decide,
   (echo_failure_warns_only (ResponseWriter.fresh (brokenAfter 3))
      (post "/echo" [[1, 2], [3, 4, 5]]) ⟨"write: broken pipe"⟩ (by decide)).1⟩

theorem Error_status (w : ResponseWriter) (error : String) (code : Nat) :
    (http.Error w error code).status = some (w.status.getD code) := by
  unfold http.Error fmt.Fprintf
  rw [Write_status]
  unfold ResponseWriter.WriteHeader ResponseWriter.SetHeader
  cases hs : w.status <;> simp [hs]

/-! ## The hello handler -/

/-- C2: when the request body is read to its end without error and the one
write of the formatted text is taken whole without error,
`HelloHandler.ServeHTTP` has appended "Hello, ", then the body, then one
newline to the response body, has logged nothing, and the status is the one
it was or, on a response without one, the 200 of a first write (never an
error status set by the handler). -/
theorem hello_formats (w : ResponseWriter) (r : Request)
    (hread : r.Body.err = none)
    (hwrite : (fmt.Fprintf w (bytes "Hello, " ++ r.Body.data ++ bytes "\n")).2 =
      ((bytes "Hello, " ++ r.Body.data ++ bytes "\n").length, none)) :
    (HelloHandler.ServeHTTP w r).1.body =
      w.body ++ (bytes "Hello, " ++ r.Body.data ++ bytes "\n") ∧
    (HelloHandler.ServeHTTP w r).1.status = some (w.status.getD 200) ∧
    (HelloHandler.ServeHTTP w r).2 = [] := by
  have hn : (fmt.Fprintf w (bytes "Hello, " ++ r.Body.data ++ bytes "\n")).2.1 =
      (bytes "Hello, " ++ r.Body.data ++ bytes "\n").length := by rw [hwrite]
  have he : (fmt.Fprintf w (bytes "Hello, " ++ r.Body.data ++ bytes "\n")).2.2 = none := by
    rw [hwrite]
  have hb := Write_body w (bytes "Hello, " ++ r.Body.data ++ bytes "\n")
  have hs := Write_status w (bytes "Hello, " ++ r.Body.data ++ bytes "\n")
  unfold fmt.Fprintf at hn he
  rw [hn, List.take_length] at hb
  unfold HelloHandler.ServeHTTP
  simp only [io.ReadAll, hread, fmt.Fprintf, he]
  exact ⟨hb, hs, trivial⟩

/-- Witness of C2: the body "Bob" on a fresh response. -/
theorem hello_formats_witness :
    (HelloHandler.ServeHTTP (ResponseWriter.fresh okConn) (post "/hello" [bytes "Bob"])).1.body
      = [] ++ (bytes "Hello, " ++ bytes "Bob" ++ bytes "\n") ∧
    (HelloHandler.ServeHTTP (ResponseWriter.fresh okConn) (post "/hello" [bytes "Bob"])).1.status
      = some 200 ∧
    (HelloHandler.ServeHTTP (ResponseWriter.fresh okConn) (post "/hello" [bytes "Bob"])).2 = [] :=
  hello_formats (ResponseWriter.fresh okConn) (post "/hello" [bytes "Bob"]) (by decide)
    (by decide)

/-- C6, evaluated where it fails: the body is "x" and the connection breaks
after eight bytes, so the write of "Hello, x" and a newline fails.  The
handler logs the cause once at error severity and calls `http.Error` with
500, but the failed write has already committed status 200: the response
keeps status 200 and its body is the partial greeting, not the fixed text. -/
theorem hello_write_failure_keeps_200 :
    (HelloHandler.ServeHTTP (ResponseWriter.fresh (brokenAfter 8))
        (post "/hello" [bytes "x"])).1.status = some 200 ∧
    (HelloHandler.ServeHTTP (ResponseWriter.fresh (brokenAfter 8))
        (post "/hello" [bytes "x"])).1.body = bytes "Hello, x" ∧
    (HelloHandler.ServeHTTP (ResponseWriter.fresh (brokenAfter 8))
        (post "/hello" [bytes "x"])).2 =
      [⟨Level.Error, "Failed to write response", [zap.Error ⟨"write: broken pipe"⟩]⟩] := by
  decide

/-- The write-failure path of the hello handler in general: on a response
without a status, when the body is read without error and the write of the
greeting returns the error `e`, the handler logs `e` once at error severity
and the status the response ends with is 200, not 500. -/
theorem hello_write_failure_status (w : ResponseWriter) (r : Request) (e : Error)
    (hread : r.Body.err = none) (hst : w.status = none)
    (hwrite : (fmt.Fprintf w (bytes "Hello, " ++ r.Body.data ++ bytes "\n")).2.2 = some e) :
    (HelloHandler.ServeHTTP w r).1.status = some 200 ∧
    (HelloHandler.ServeHTTP w r).2 =
      [⟨Level.Error, "Failed to write response", [zap.Error e]⟩] := by
  unfold HelloHandler.ServeHTTP
  simp only [io.ReadAll, hread, hwrite]
  refine ⟨?_, trivial⟩
  rw [Error_status]
  unfold fmt.Fprintf
  rw [Write_status, hst]
  rfl

/-- The sibling path of C6 that does work: when reading the body fails on a
response without a status, the handler logs the cause once at error severity,
the status becomes 500 and only bytes of the fixed text reach the body. -/
theorem hello_read_failure (w : ResponseWriter) (r : Request) (e : Error)
    (hread : r.Body.err = some e) (hst : w.status = none) :
    (HelloHandler.ServeHTTP w r).1.status = some 500 ∧
    (∃ k, k <+: bytes "Internal server error" ++ bytes "\n" ∧
      (HelloHandler.ServeHTTP w r).1.body = w.body ++ k) ∧
    (HelloHandler.ServeHTTP w r).2 =
      [⟨Level.Error, "Failed to read request", [zap.Error e]⟩] := by
  unfold HelloHandler.ServeHTTP
  simp only [io.ReadAll, hread, http.Error, fmt.Fprintf]
  refine ⟨?_, ?_, trivial⟩
  · rw [Write_status]
    simp [ResponseWriter.WriteHeader, ResponseWriter.SetHeader, hst,
      http.StatusInternalServerError]
  · rw [Write_body, WriteHeader_body]
    exact ⟨_, List.take_prefix _ _, rfl⟩

/-! ## Registration in the pattern table -/

theorem NewServeMux_eq (routes : List Route) :
    NewServeMux routes = registerAll http.NewServeMux routes := rfl

theorem lookup_isSome (mux : ServeMux) (key : String) :
    (mux.lookup key).isSome = true ↔ key ∈ mux.m.map (fun e => e.pattern) := by
  unfold ServeMux.lookup
  rw [List.find?_isSome]
  simp only [List.mem_map, beq_iff_eq]

theorem lookup_eq_none (mux : ServeMux) (key : String)
    (h : key ∉ mux.m.map (fun e => e.pattern)) : mux.lookup key = none := by
  cases hl : mux.lookup key with
  | none => rfl
  | some v =>
    exact absurd ((lookup_isSome mux key).mp (by simp [hl])) h

theorem Handle_ok (mux mux2 : ServeMux) (pattern : String) (handler : Handler)
    (h : mux.Handle pattern handler = Except.ok mux2) :
    pattern ∉ mux.m.map (fun e => e.pattern) ∧
    mux2.m = mux.m ++ [⟨handler, pattern⟩] ∧
    (pattern.toList.getLast? ≠ some '/' → mux2.es = mux.es) := by
  unfold ServeMux.Handle at h
  by_cases h1 : pattern = ""
  · rw [if_pos h1] at h
    cases h
  · by_cases h2 : (mux.lookup pattern).isSome = true
    · rw [if_neg h1, if_pos h2] at h
      cases h
    · rw [if_neg h1, if_neg h2] at h
      have hm := Except.ok.inj h
      subst hm
      refine ⟨fun hin => h2 ((lookup_isSome mux pattern).mpr hin), rfl, ?_⟩
      intro hl
      exact if_neg hl

theorem registerAll_ok (routes : List Route) :
    ∀ mux mux2 : ServeMux, registerAll mux routes = Except.ok mux2 →
      mux2.m.map (fun e => e.pattern) =
        mux.m.map (fun e => e.pattern) ++ routes.map Route.Pattern ∧
      ((mux.m.map (fun e => e.pattern)).Nodup → (mux2.m.map (fun e => e.pattern)).Nodup) ∧
      ((∀ r ∈ routes, r.Pattern.toList.getLast? ≠ some '/') → mux2.es = mux.es) := by
  induction routes with
  | nil =>
    intro mux mux2 h
    have hm : mux = mux2 := Except.ok.inj h
    subst hm
    simp
  | cons r rest ih =>
    intro mux mux2 h
    unfold registerAll at h
    rw [List.foldlM_cons] at h
    cases hH : mux.Handle r.Pattern r.ServeHTTP with
    | error msg =>
      rw [hH] at h
      cases h
    | ok mux1 =>
      rw [hH] at h
      obtain ⟨hnot, hm1, hes1⟩ := Handle_ok mux mux1 r.Pattern r.ServeHTTP hH
      obtain ⟨hmap, hnd, hes⟩ := ih mux1 mux2 h
      have hmap1 : mux1.m.map (fun e => e.pattern) =
          mux.m.map (fun e => e.pattern) ++ [r.Pattern] := by
        rw [hm1]; simp
      refine ⟨?_, ?_, ?_⟩
      · rw [hmap, hmap1]; simp
      · intro hmux
        apply hnd
        rw [hmap1]
        exact List.Nodup.append hmux (List.nodup_singleton _) (by simpa using hnot)
      · intro hall
        rw [hes (fun x hx => hall x (List.mem_cons_of_mem _ hx)),
          hes1 (hall r (List.mem_cons_self _ _))]

theorem registerAll_error (routes : List Route) :
    ∀ (mux : ServeMux) (msg : String), registerAll mux routes = Except.error msg →
      msg = "http: invalid pattern" ∨
      ∃ r ∈ routes, msg = "http: multiple registrations for " ++ r.Pattern := by
  induction routes with
  | nil =>
    intro mux msg h
    cases h
  | cons r rest ih =>
    intro mux msg h
    unfold registerAll at h
    rw [List.foldlM_cons] at h
    cases hH : mux.Handle r.Pattern r.ServeHTTP with
    | error m =>
      rw [hH] at h
      have hm : m = msg := Except.error.inj h
      subst hm
      unfold ServeMux.Handle at hH
      by_cases h1 : r.Pattern = ""
      · rw [if_pos h1] at hH
        exact Or.inl (Except.error.inj hH).symm
      · by_cases h2 : (mux.lookup r.Pattern).isSome = true
        · rw [if_neg h1, if_pos h2] at hH
          exact Or.inr ⟨r, List.mem_cons_self _ _, (Except.error.inj hH).symm⟩
        · rw [if_neg h1, if_neg h2] at hH
          cases hH
    | ok mux1 =>
      rw [hH] at h
      rcases ih mux1 msg h with h0 | ⟨x, hx, hmsg⟩
      · exact Or.inl h0
      · exact Or.inr ⟨x, List.mem_cons_of_mem _ hx, hmsg⟩

/-- When no subtree pattern is registered and neither the path nor the host
followed by the path is a registered pattern, the table selects no entry. -/
theorem handler_eq_none (mux : ServeMux) (host path : String) (hes : mux.es = [])
    (hpath : path ∉ mux.m.map (fun e => e.pattern))
    (hhost : host ++ path ∉ mux.m.map (fun e => e.pattern)) :
    mux.handler host path = none := by
  have h1 : mux.match_ path = none := by
    unfold ServeMux.match_
    rw [lookup_eq_none mux path hpath, hes]
    rfl
  have h2 : mux.match_ (host ++ path) = none := by
    unfold ServeMux.match_
    rw [lookup_eq_none mux (host ++ path) hhost, hes]
    rfl
  unfold ServeMux.handler
  cases mux.hosts <;> simp [h1, h2]

/-- A string that ends in a given rooted path contains a slash. -/
theorem slash_mem_append (host rest : String) : '/' ∈ (host ++ "/" ++ rest).toList := by
  simp [String.toList]

theorem getLast_append_slash (s : String) : (s ++ "/").toList.getLast? = some '/' := by
  simp [String.toList]

/-- When no registered pattern ends in a slash, no request is redirected to
its path with a slash appended. -/
theorem shouldRedirect_false (mux : ServeMux) (host path : String)
    (hslash : ∀ key : String, key.toList.getLast? = some '/' →
      key ∉ mux.m.map (fun e => e.pattern)) :
    mux.shouldRedirectRLocked host path = false := by
  have h1 : mux.lookup (path ++ "/") = none :=
    lookup_eq_none mux _ (hslash _ (getLast_append_slash path))
  have h2 : mux.lookup (host ++ path ++ "/") = none :=
    lookup_eq_none mux _ (hslash _ (getLast_append_slash (host ++ path)))
  unfold ServeMux.shouldRedirectRLocked
  simp [h1, h2]

/-- The not-found case of `ServeMux.ServeHTTP`: the request-URI is not "*",
no pattern ends in a slash, the path is clean (or the method is CONNECT), and
neither the path nor the looked-up host followed by the path is registered. -/
theorem serve_not_found (mux : ServeMux) (redirect : URL → Nat → Handler)
    (w : ResponseWriter) (r : Request)
    (huri : r.RequestURI ≠ "*")
    (hes : mux.es = [])
    (hslash : ∀ key : String, key.toList.getLast? = some '/' →
      key ∉ mux.m.map (fun e => e.pattern))
    (hclean : r.Method = "CONNECT" ∨ cleanPath r.URL.Path = r.URL.Path)
    (hpath : r.URL.Path ∉ mux.m.map (fun e => e.pattern))
    (hhost : (if r.Method = "CONNECT" then r.Host else stripHostPort r.Host) ++ r.URL.Path ∉
      mux.m.map (fun e => e.pattern)) :
    mux.ServeHTTP redirect w r = http.NotFound w r := by
  unfold ServeMux.ServeHTTP
  rw [if_neg huri]
  unfold ServeMux.Handler
  by_cases hm : r.Method = "CONNECT"
  · rw [if_pos hm] at hhost
    rw [if_pos hm, shouldRedirect_false mux _ _ hslash,
      handler_eq_none mux r.Host r.URL.Path hes hpath hhost]
    rfl
  · rw [if_neg hm] at hhost
    have hc : cleanPath r.URL.Path = r.URL.Path := hclean.resolve_left hm
    rw [if_neg hm]
    simp [hc, shouldRedirect_false mux _ _ hslash,
      handler_eq_none mux (stripHostPort r.Host) r.URL.Path hes hpath hhost]

/-! ## The router -/

/-- C3, evaluated where it fails: in the router `NewServeMux` builds from
the Echo and the Hello handler, a request with path "/echo" (or "/hello"),
whatever its method and host, selects no entry of the table and is answered
by `http.NotFound`: the patterns the handlers declare are "echo" and "hello",
without the leading slash every request path has. -/
theorem slash_echo_not_found (method host : String) (redirect : URL → Nat → Handler)
    (w : ResponseWriter) (body : Body) :
    ∃ mux, NewServeMux [NewEchoHandler, NewHelloHandler] = Except.ok mux ∧
      mux.handler host "/echo" = none ∧
      mux.handler host "/hello" = none ∧
      mux.ServeHTTP redirect w (requestTo method host "/echo" body) =
        http.NotFound w (requestTo method host "/echo" body) ∧
      mux.ServeHTTP redirect w (requestTo method host "/hello" body) =
        http.NotFound w (requestTo method host "/hello" body) := by
  have key : ∀ (h rest : String), '/' ∉ "echo".toList → '/' ∉ "hello".toList →
      h ++ "/" ++ rest ∉ ["echo", "hello"] := by
    intro h rest he hh hin
    have hs := slash_mem_append h rest
    rcases List.mem_cons.mp hin with h1 | h1
    · rw [h1] at hs; exact he hs
    · rw [List.mem_singleton.mp h1] at hs; exact hh hs
  have k1 : ∀ h : String, h ++ "/echo" ∉ ["echo", "hello"] := by
    intro h
    have := key h "echo" (by decide) (by decide)
    rwa [String.append_assoc] at this
  have k2 : ∀ h : String, h ++ "/hello" ∉ ["echo", "hello"] := by
    intro h
    have := key h "hello" (by decide) (by decide)
    rwa [String.append_assoc] at this
  have hslash : ∀ key : String, key.toList.getLast? = some '/' →
      key ∉ ["echo", "hello"] := by
    intro k hk hin
    rcases List.mem_cons.mp hin with h1 | h1
    · rw [h1] at hk; exact absurd hk (by decide)
    · rw [List.mem_singleton.mp h1] at hk; exact absurd hk (by decide)
  refine ⟨{ m := [⟨EchoHandler.ServeHTTP, "echo"⟩, ⟨HelloHandler.ServeHTTP, "hello"⟩],
            es := [], hosts := true }, rfl, ?_, ?_, ?_, ?_⟩
  · exact handler_eq_none _ host "/echo" rfl (by decide) (k1 host)
  · exact handler_eq_none _ host "/hello" rfl (by decide) (k2 host)
  · have h1 : ("/echo" : String) ≠ "*" := by decide
    have h2 : cleanPath "/echo" = "/echo" := by decide
    have h3 : "/echo" ∉ ["echo", "hello"] := by decide
    exact serve_not_found _ redirect w (requestTo method host "/echo" body) h1 rfl
      hslash (Or.inr h2) h3 (k1 _)
  · have h1 : ("/hello" : String) ≠ "*" := by decide
    have h2 : cleanPath "/hello" = "/hello" := by decide
    have h3 : "/hello" ∉ ["echo", "hello"] := by decide
    exact serve_not_found _ redirect w (requestTo method host "/hello" body) h1 rfl
      hslash (Or.inr h2) h3 (k2 _)

/-- C4: when two of the routes declare the same pattern, `NewServeMux`
panics during construction, with the message of `ServeMux.Handle` for an
invalid or an already registered pattern, and returns no router (so a router
that is returned never holds a duplicate pattern). -/
theorem duplicate_pattern_fails (routes : List Route)
    (hdup : ¬ (routes.map Route.Pattern).Nodup) :
    (∃ msg, NewServeMux routes = Except.error msg ∧
      (msg = "http: invalid pattern" ∨
        ∃ r ∈ routes, msg = "http: multiple registrations for " ++ r.Pattern)) ∧
    ∀ mux, NewServeMux routes ≠ Except.ok mux := by
  have hno : ∀ mux, NewServeMux routes ≠ Except.ok mux := by
    intro mux h
    obtain ⟨hmap, hnd, _⟩ := registerAll_ok routes http.NewServeMux mux h
    have h2 := hnd (by simp [http.NewServeMux])
    rw [hmap] at h2
    exact hdup (by simpa [http.NewServeMux] using h2)
  refine ⟨?_, hno⟩
  cases h : NewServeMux routes with
  | ok mux => exact absurd h (hno mux)
  | error msg => exact ⟨msg, rfl, registerAll_error routes http.NewServeMux msg h⟩

/-- Witness of C4: two routes that both declare "echo". -/
theorem duplicate_pattern_fails_witness :
    ¬ ([NewEchoHandler, NewEchoHandler].map Route.Pattern).Nodup ∧
    NewServeMux [NewEchoHandler, NewEchoHandler] =
      Except.error "http: multiple registrations for echo" ∧
    ∀ mux, NewServeMux [NewEchoHandler, NewEchoHandler] ≠ Except.ok mux :=
  ⟨by decide, rfl,
   (duplicate_pattern_fails [NewEchoHandler, NewEchoHandler] (by decide)).2⟩

/-- C5 as stated fails, in four ways.  With one route registered under
"/", a request to "/other", a path different from every registered pattern,
is handed to that route and answered with status 200 and its own body.  With
one route registered under "localhost/x", a request to "/x" on that host
(with or without a port) is handed to the route.  In the program's own
router, the request-URI "*" is answered with 400, and the path "//nope",
which is not clean, with a redirect (301): none of them with 404. -/
theorem unknown_path_reaches_route :
    (∀ x ∈ [rootRoute], "/other" ≠ x.Pattern) ∧
    (∃ mux, NewServeMux [rootRoute] = Except.ok mux ∧
      (mux.handler "localhost" "/other").map (fun e => e.pattern) = some "/" ∧
      (mux.ServeHTTP locationRedirect (ResponseWriter.fresh okConn)
        (post "/other" [[1, 2]])).1.status = some 200 ∧
      (mux.ServeHTTP locationRedirect (ResponseWriter.fresh okConn)
        (post "/other" [[1, 2]])).1.body = [1, 2]) ∧
    (∀ x ∈ [hostRoute], "/x" ≠ x.Pattern) ∧
    (∃ mux, NewServeMux [hostRoute] = Except.ok mux ∧
      (mux.ServeHTTP locationRedirect (ResponseWriter.fresh okConn)
        (post "/x" [[1, 2]])).1.status = some 200 ∧
      (mux.ServeHTTP locationRedirect (ResponseWriter.fresh okConn)
        (requestTo "POST" "localhost:8081" "/x" ⟨[[1, 2]], none⟩)).1.status = some 200) ∧
    (∀ x ∈ [NewEchoHandler, NewHelloHandler], "*" ≠ x.Pattern ∧ "//nope" ≠ x.Pattern) ∧
    (∃ mux, NewServeMux [NewEchoHandler, NewHelloHandler] = Except.ok mux ∧
      (mux.ServeHTTP locationRedirect (ResponseWriter.fresh okConn)
        (requestTo "GET" "localhost" "*" ⟨[], none⟩)).1.status = some 400 ∧
      (mux.ServeHTTP locationRedirect (ResponseWriter.fresh okConn)
        (requestTo "GET" "localhost" "//nope" ⟨[], none⟩)).1.status = some 301) := by
  refine ⟨by decide, ⟨_, rfl, by decide, by decide, by decide⟩, by decide,
    ⟨_, rfl, by decide, by decide⟩, by decide, ⟨_, rfl, by decide, by decide⟩⟩

/-- C5, amended: in a router `NewServeMux` returns, when no registered
pattern ends in a slash, the request-URI is not "*", the path is clean
(`cleanPath` leaves it as it is; not asked of a CONNECT request, which is
looked up as it is), and neither the path nor the host (its port stripped,
except for CONNECT) followed by the path equals a registered pattern, then the
table selects no route, the request is answered by `http.NotFound`, nothing
is logged, and on a response without a status the status is 404. -/
theorem unmatched_request_not_found (routes : List Route) (mux : ServeMux)
    (redirect : URL → Nat → Handler) (w : ResponseWriter) (r : Request)
    (hmux : NewServeMux routes = Except.ok mux)
    (hsub : ∀ x ∈ routes, x.Pattern.toList.getLast? ≠ some '/')
    (huri : r.RequestURI ≠ "*")
    (hclean : r.Method = "CONNECT" ∨ cleanPath r.URL.Path = r.URL.Path)
    (hpath : ∀ x ∈ routes, r.URL.Path ≠ x.Pattern)
    (hhost : ∀ x ∈ routes,
      (if r.Method = "CONNECT" then r.Host else stripHostPort r.Host) ++ r.URL.Path ≠
        x.Pattern) :
    mux.handler (if r.Method = "CONNECT" then r.Host else stripHostPort r.Host) r.URL.Path
      = none ∧
    mux.ServeHTTP redirect w r = http.NotFound w r ∧
    (mux.ServeHTTP redirect w r).1.status = some (w.status.getD 404) ∧
    (mux.ServeHTTP redirect w r).2 = [] := by
  obtain ⟨hmap, _, hes⟩ := registerAll_ok routes http.NewServeMux mux hmux
  have hm : mux.m.map (fun e => e.pattern) = routes.map Route.Pattern := by
    simpa [http.NewServeMux] using hmap
  have he : mux.es = [] := hes hsub
  have hp : r.URL.Path ∉ mux.m.map (fun e => e.pattern) := by
    rw [hm]
    intro hin
    obtain ⟨x, hx, hxp⟩ := List.mem_map.mp hin
    exact hpath x hx hxp.symm
  have hh : (if r.Method = "CONNECT" then r.Host else stripHostPort r.Host) ++ r.URL.Path ∉
      mux.m.map (fun e => e.pattern) := by
    rw [hm]
    intro hin
    obtain ⟨x, hx, hxp⟩ := List.mem_map.mp hin
    exact hhost x hx hxp.symm
  have hs : ∀ key : String, key.toList.getLast? = some '/' →
      key ∉ mux.m.map (fun e => e.pattern) := by
    intro key hk
    rw [hm]
    intro hin
    obtain ⟨x, hx, hxp⟩ := List.mem_map.mp hin
    exact hsub x hx (hxp ▸ hk)
  have hserve := serve_not_found mux redirect w r huri he hs hclean hp hh
  refine ⟨handler_eq_none mux _ r.URL.Path he hp hh, hserve, ?_, ?_⟩
  · rw [hserve]
    exact Error_status w "404 page not found" 404
  · rw [hserve]
    rfl

/-- Witness of C5 amended: the program's two routes and the path "/nope". -/
theorem unmatched_request_not_found_witness :
    (∃ mux, NewServeMux [NewEchoHandler, NewHelloHandler] = Except.ok mux ∧
      mux.handler "localhost" "/nope" = none ∧
      (mux.ServeHTTP locationRedirect (ResponseWriter.fresh okConn)
        (post "/nope" [])).1.status = some 404 ∧
      (mux.ServeHTTP locationRedirect (ResponseWriter.fresh okConn)
        (post "/nope" [])).1.body = bytes "404 page not found" ++ bytes "\n") :=
  ⟨_, rfl,
   (unmatched_request_not_found [NewEchoHandler, NewHelloHandler] _ locationRedirect
      (ResponseWriter.fresh okConn) (post "/nope" []) rfl (by decide) (by decide)
      (Or.inr (by decide)) (by decide) (by decide)).1,
   by decide, by decide⟩

/-! ## The lifecycle hooks -/

/-- C7: when `net.Listen("tcp", ":8081")` fails with `err`, the `OnStart`
hook that `NewHttpServer` appends returns exactly `err` and leaves the
process state as it was: nothing is logged and no serving task is started. -/
theorem onStart_bind_failure (lc : Lifecycle) (mux : ServeMux) (env : Env) (ctx : Context)
    (p : Proc) (err : Error) (hbind : env.Listen "tcp" ":8081" = Except.error err) :
    ∃ hook, (NewHttpServer lc mux).2.hooks = lc.hooks ++ [hook] ∧
      hook.OnStart env ctx p = (some err, p) := by
  refine ⟨_, rfl, ?_⟩
  show NewHttpServer.OnStart _ env ctx p = (some err, p)
  unfold NewHttpServer.OnStart
  simp only [hbind]

/-- Witness of C7: the port is already in use. -/
theorem onStart_bind_failure_witness :
    ∃ hook, (NewHttpServer ⟨[]⟩ http.NewServeMux).2.hooks = [] ++ [hook] ∧
      hook.OnStart busyEnv ⟨none⟩ ⟨[], []⟩ =
        (some ⟨"listen tcp :8081: bind: address already in use"⟩, ⟨[], []⟩) :=
  onStart_bind_failure ⟨[]⟩ http.NewServeMux busyEnv ⟨none⟩ ⟨[], []⟩
    ⟨"listen tcp :8081: bind: address already in use"⟩ rfl

/-- C8: when `net.Listen("tcp", ":8081")` returns the listener `ln`, the
`OnStart` hook that `NewHttpServer` appends returns no error, has appended
one info entry naming the address ":8081" to the log, and has launched one
goroutine, `srv.Serve(ln)` for the server `NewHttpServer` returns (address
":8081", the given mux as handler); the hook's result is formed without
running that goroutine. -/
theorem onStart_bind_success (lc : Lifecycle) (mux : ServeMux) (env : Env) (ctx : Context)
    (p : Proc) (ln : Listener) (hbind : env.Listen "tcp" ":8081" = Except.ok ln) :
    (NewHttpServer lc mux).1.Addr = ":8081" ∧
    (NewHttpServer lc mux).1.Handler = mux ∧
    ∃ hook, (NewHttpServer lc mux).2.hooks = lc.hooks ++ [hook] ∧
      hook.OnStart env ctx p =
        (none,
          { log := p.log ++
              [⟨Level.Info, "Starting HTTP server at", [zap.String "addr" ":8081"]⟩]
            goroutines := p.goroutines ++ [Goroutine.Serve (NewHttpServer lc mux).1 ln] }) := by
  refine ⟨rfl, rfl, _, rfl, ?_⟩
  show NewHttpServer.OnStart _ env ctx p = _
  unfold NewHttpServer.OnStart
  simp only [hbind]
  rfl

/-- Witness of C8: binding succeeds on an empty process state. -/
theorem onStart_bind_success_witness :
    ∃ hook, (NewHttpServer ⟨[]⟩ http.NewServeMux).2.hooks = [] ++ [hook] ∧
      hook.OnStart freeEnv ⟨none⟩ ⟨[], []⟩ =
        (none,
          { log := [] ++
              [⟨Level.Info, "Starting HTTP server at", [zap.String "addr" ":8081"]⟩]
            goroutines := [] ++
              [Goroutine.Serve (NewHttpServer ⟨[]⟩ http.NewServeMux).1 ⟨"tcp", ":8081", 3⟩] }) :=
  (onStart_bind_success ⟨[]⟩ http.NewServeMux freeEnv ⟨none⟩ ⟨[], []⟩ ⟨"tcp", ":8081", 3⟩
    rfl).2.2

theorem closeIdleConns_measure (active : List Nat) (t : Nat)
    (h : ¬ Server.closeIdleConns active t = true) :
    active.foldr max 0 + 1 - (t + 1) < active.foldr max 0 + 1 - t := by
  have hex : ∃ c ∈ active, t < c := by
    unfold Server.closeIdleConns at h
    simpa using h
  obtain ⟨c, hc, htc⟩ := hex
  have hle : ∀ l : List Nat, c ∈ l → c ≤ l.foldr max 0 := by
    intro l
    induction l with
    | nil => intro hin; cases hin
    | cons a l ih =>
      intro hin
      rcases List.mem_cons.mp hin with hm | hm
      · subst hm
        exact le_max_left _ _
      · exact le_trans (ih hm) (le_max_right _ _)
  have := hle active hc
  omega

/-- What the polling loop of `Shutdown` returns from tick `t` on: with a
deadline `d`, the listeners' close error when every request is finished by
tick `max t d`, and the deadline error otherwise; without a deadline, the
listeners' close error. -/
theorem shutdownPoll_eq (active : List Nat) (lnerr : Option Error) (ctx : Context) :
    ∀ (n t : Nat), active.foldr max 0 + 1 - t = n →
      Server.shutdownPoll active lnerr ctx t =
        match ctx.deadline with
        | none => lnerr
        | some d =>
          if ∀ c ∈ active, c ≤ max t d then lnerr else some context.DeadlineExceeded := by
  intro n
  induction n using Nat.strong_induction_on with
  | _ n ih =>
    intro t hn
    by_cases hidle : Server.closeIdleConns active t = true
    · rw [Server.shutdownPoll, dif_pos hidle]
      have hall : ∀ c ∈ active, c ≤ t := by
        unfold Server.closeIdleConns at hidle
        simpa using hidle
      cases hd : ctx.deadline with
      | none => rfl
      | some d =>
        have : ∀ c ∈ active, c ≤ max t d := fun c hc => le_trans (hall c hc) (le_max_left _ _)
        exact (if_pos this).symm
    · have hnall : ¬ ∀ c ∈ active, c ≤ t := by
        intro hall
        apply hidle
        unfold Server.closeIdleConns
        simpa using hall
      have hlt := closeIdleConns_measure active t hidle
      have hrec := ih (active.foldr max 0 + 1 - (t + 1)) (hn ▸ hlt) (t + 1) rfl
      rw [Server.shutdownPoll, dif_neg hidle]
      cases hd : ctx.deadline with
      | none =>
        rw [hd] at hrec
        simp only [Context.Err, hd]
        exact hrec
      | some d =>
        rw [hd] at hrec
        by_cases hdt : d ≤ t
        · have hmax : max t d = t := max_eq_left hdt
          simp only [Context.Err, hd, if_pos hdt, hmax, if_neg hnall]
        · have hmax : max (t + 1) d = max t d := by
            rw [max_eq_right (by omega), max_eq_right (by omega)]
          have hrec2 : Server.shutdownPoll active lnerr ctx (t + 1) =
              if ∀ c ∈ active, c ≤ max t d then lnerr else some context.DeadlineExceeded := by
            rw [← hmax]
            exact hrec
          simp only [Context.Err, hd, if_neg hdt]
          exact hrec2

/-- The value `Shutdown` returns: the listeners' close error when the
in-flight requests complete up to the deadline, the deadline error
otherwise. -/
theorem Shutdown_eq (srv : Server) (env : Env) (ctx : Context) :
    srv.Shutdown env ctx =
      if DrainsInTime env ctx then env.closeListeners else some context.DeadlineExceeded := by
  unfold Server.Shutdown
  rw [shutdownPoll_eq env.active env.closeListeners ctx _ env.now rfl]
  by_cases h : DrainsInTime env ctx
  · rw [if_pos h]
    unfold DrainsInTime at h
    cases hd : ctx.deadline with
    | none => rfl
    | some d =>
      rw [hd] at h
      exact if_pos h
  · rw [if_neg h]
    unfold DrainsInTime at h
    cases hd : ctx.deadline with
    | none =>
      rw [hd] at h
      exact absurd trivial h
    | some d =>
      rw [hd] at h
      exact if_neg h

/-- The spec's graceful-shutdown example, long deadline: a request in flight
until tick 25 and a deadline at tick 30: `Shutdown` returns `nil`. -/
theorem shutdown_long_deadline (srv : Server) : srv.Shutdown freeEnv ⟨some 30⟩ = none := by
  rw [Shutdown_eq]
  decide

/-- The spec's graceful-shutdown example, short deadline: a request in flight
until tick 25 and a deadline at tick 20: `Shutdown` returns the deadline
error. -/
theorem shutdown_short_deadline (srv : Server) :
    srv.Shutdown freeEnv ⟨some 20⟩ = some context.DeadlineExceeded := by
  rw [Shutdown_eq]
  decide

/-- C9: the `OnStop` hook that `NewHttpServer` appends calls `Shutdown` on
the server `NewHttpServer` returns, with the context it is given, and returns
exactly what `Shutdown` returns, the process state untouched.  That value is
the listeners' close error when the in-flight requests complete up to the
context's deadline and the deadline error otherwise; so the hook returns an
error if and only if the shutdown did not complete cleanly within the
deadline. -/
theorem onStop_error_iff_not_clean (lc : Lifecycle) (mux : ServeMux) :
    ∃ hook, (NewHttpServer lc mux).2.hooks = lc.hooks ++ [hook] ∧
      ∀ (env : Env) (ctx : Context) (p : Proc),
        hook.OnStop env ctx p = ((NewHttpServer lc mux).1.Shutdown env ctx, p) ∧
        (hook.OnStop env ctx p).1 =
          (if DrainsInTime env ctx then env.closeListeners
            else some context.DeadlineExceeded) ∧
        ((hook.OnStop env ctx p).1 ≠ none ↔ ¬ CompletesCleanly env ctx) := by
  refine ⟨_, rfl, fun env ctx p => ?_⟩
  have hval : (NewHttpServer.OnStop (NewHttpServer lc mux).1 env ctx p).1 =
      (if DrainsInTime env ctx then env.closeListeners
        else some context.DeadlineExceeded) :=
    Shutdown_eq (NewHttpServer lc mux).1 env ctx
  refine ⟨rfl, hval, ?_⟩
  show (NewHttpServer.OnStop (NewHttpServer lc mux).1 env ctx p).1 ≠ none ↔ _
  rw [hval]
  unfold CompletesCleanly
  by_cases hd : DrainsInTime env ctx
  · simp [hd]
  · simp [hd]

end Fxch
